import Mathlib

/-!
Verification of the join-request lifecycle of the reading-library web
application.  The development embeds, as pure Lean functions over an
explicit store, the POST create endpoint of
src/src/components/JoinRequestsManager.tsx (server document), the
client-side handler handleRequestAction of the same file, and — since the
PUT resolve endpoint implementation is absent from src/ — a resolve
operation modelled from the specification.
-/

namespace JoinRequestLifecycle

/-- Status of a join request, mirroring the Prisma enum used by the POST
endpoint: PENDING, ACCEPTED, DECLINED. -/
inductive ReqStatus where
  | PENDING
  | ACCEPTED
  | DECLINED
deriving DecidableEq, Repr

/-- Role of a group member, mirroring RoleInGroup of the Prisma client. -/
inductive Role where
  | MEMBER
  | ADMIN
deriving DecidableEq, Repr

/-- A row of the groupJoinRequest table: id, the (groupId, userId) pair and
a status.  Timestamps are not modelled; no claim mentions them. -/
structure JoinRequestRow where
  id : Nat
  groupId : String
  userId : String
  status : ReqStatus
deriving DecidableEq, Repr

/-- A row of the groupMember table: the (group_id, user_id) pair and a
role. -/
structure MembershipRow where
  groupId : String
  userId : String
  role : Role
deriving DecidableEq, Repr

/-- A row of the group table: id and name (name feeds the email subject
only). -/
structure GroupRow where
  id : String
  name : String
deriving DecidableEq, Repr

/-- A row of the user table: id, optional name, optional email, as read by
the include user clause of the admin-members query. -/
structure UserRow where
  id : String
  name : Option String
  email : Option String
deriving DecidableEq, Repr

/-- The persistence store the endpoint reads and writes through Prisma:
group, user, membership and join-request tables, plus a counter supplying
fresh join-request ids. -/
structure Store where
  groups : List GroupRow
  users : List UserRow
  memberships : List MembershipRow
  joinRequests : List JoinRequestRow
  nextId : Nat
deriving DecidableEq, Repr

/-- Lookup prisma.group.findUnique on id. -/
def findGroup (st : Store) (g : String) : Option GroupRow :=
  st.groups.find? (fun gr => gr.id == g)

/-- Lookup prisma.groupMember.findUnique on the (group_id, user_id)
unique key. -/
def findMembership (st : Store) (g u : String) : Option MembershipRow :=
  st.memberships.find? (fun m => m.groupId == g && m.userId == u)

/-- Test whether a join-request row carries the (groupId, userId) unique
key the endpoint queries on. -/
def pairMatch (g u : String) (r : JoinRequestRow) : Bool :=
  r.groupId == g && r.userId == u

/-- Lookup prisma.groupJoinRequest.findUnique on the (groupId, userId)
unique key. -/
def findJoinRequest (st : Store) (g u : String) : Option JoinRequestRow :=
  st.joinRequests.find? (pairMatch g u)

/-- Emails of the ADMIN members of group g joined with their user rows,
as produced by the include members where role ADMIN include user clause;
admins whose user record has no email contribute nothing. -/
def adminEmails (st : Store) (g : String) : List String :=
  (st.memberships.filter (fun m => m.groupId == g && m.role == Role.ADMIN)).filterMap
    (fun m => (st.users.find? (fun us => us.id == m.userId)).bind (fun us => us.email))

/-- The prisma.groupJoinRequest.upsert keyed on (groupId, userId): update
the existing row to status PENDING when one exists, otherwise insert a new
row with a fresh id and status PENDING. -/
def upsertJoinRequest (st : Store) (g u : String) : Store :=
  if (findJoinRequest st g u).isSome then
    { st with joinRequests := st.joinRequests.map (fun r =>
        if pairMatch g u r then { r with status := ReqStatus.PENDING } else r) }
  else
    { st with
      joinRequests := st.joinRequests ++ [⟨st.nextId, g, u, ReqStatus.PENDING⟩],
      nextId := st.nextId + 1 }

/-- Outcomes of the POST endpoint, one per return site of the handler. -/
inductive CreateResult where
  | unauthorized
  | missingGroupId
  | groupNotFound
  | alreadyMember
  | alreadyPending
  | internalError
  | created
deriving DecidableEq, Repr

/-- HTTP status code attached to each POST outcome in the source. -/
def createHttpStatus : CreateResult → Nat
  | CreateResult.unauthorized => 401
  | CreateResult.missingGroupId => 400
  | CreateResult.groupNotFound => 404
  | CreateResult.alreadyMember => 400
  | CreateResult.alreadyPending => 400
  | CreateResult.internalError => 500
  | CreateResult.created => 201

/-- Result of one run of the POST handler: the outcome, the store after
the handler returns, the list of notification attempts (emails the loop
reached resend.emails.send or render for) and the list of attempts whose
try block threw, which the handler only logs. -/
structure CreateOutcome where
  result : CreateResult
  store : Store
  attempted : List String
  failedLogged : List String
deriving DecidableEq, Repr

/-- Steps 4 and 5 of the POST handler, reached once every check passed:
the upsert wrapped in the ambient try (upsertFails models the store
throwing there), then the per-admin email loop whose inner try-catch logs
a failed send (sendOk models the transport) and continues. -/
def createUpsertStep (st : Store) (g u : String) (upsertFails : Bool)
    (sendOk : String → Bool) : CreateOutcome :=
  if upsertFails then
    ⟨CreateResult.internalError, st, [], []⟩
  else
    let st1 := upsertJoinRequest st g u
    let attempted := adminEmails st g
    ⟨CreateResult.created, st1, attempted, attempted.filter (fun e => !sendOk e)⟩

/-- The POST create endpoint.  session carries the authenticated user id
when present; groupIdParam the route parameter (a missing or empty id is
falsy in the source check).  The checks run in source order: session,
group id, group existence, existing membership, existing PENDING request,
then the upsert and the notification loop. -/
def createJoinRequest (st : Store) (session : Option String)
    (groupIdParam : Option String) (upsertFails : Bool)
    (sendOk : String → Bool) : CreateOutcome :=
  match session with
  | none => ⟨CreateResult.unauthorized, st, [], []⟩
  | some userId =>
    match groupIdParam with
    | none => ⟨CreateResult.missingGroupId, st, [], []⟩
    | some groupId =>
      if groupId = "" then ⟨CreateResult.missingGroupId, st, [], []⟩
      else
        match findGroup st groupId with
        | none => ⟨CreateResult.groupNotFound, st, [], []⟩
        | some _ =>
          if (findMembership st groupId userId).isSome then
            ⟨CreateResult.alreadyMember, st, [], []⟩
          else
            match findJoinRequest st groupId userId with
            | some r =>
              if r.status = ReqStatus.PENDING then
                ⟨CreateResult.alreadyPending, st, [], []⟩
              else createUpsertStep st groupId userId upsertFails sendOk
            | none => createUpsertStep st groupId userId upsertFails sendOk

/-- Action parameter of the PUT resolve endpoint. -/
inductive ResolveAction where
  | accept
  | decline
deriving DecidableEq, Repr

/-- Outcome of the resolve operation: NotFound, or success carrying the
updated status. -/
inductive ResolveResult where
  | notFound
  | resolved (newStatus : ReqStatus)
deriving DecidableEq, Repr

/-- HTTP status code of a resolve outcome per the spec interface table. -/
def resolveHttpStatus : ResolveResult → Nat
  | ResolveResult.notFound => 404
  | ResolveResult.resolved _ => 200

/-- Modelled from the spec: the PUT resolve endpoint implementation is not
among the source files, only its client caller is.  Per spec section 4.1,
resolve fails NotFound if no request with that id exists in that group or
if its status is not PENDING; on accept it transactionally sets the status
to ACCEPTED and creates a Membership row with role MEMBER; on decline it
sets the status to DECLINED. -/
def resolveJoinRequest (st : Store) (groupId : String) (requestId : Nat)
    (action : ResolveAction) : ResolveResult × Store :=
  match st.joinRequests.find? (fun r => r.id == requestId && r.groupId == groupId) with
  | none => (ResolveResult.notFound, st)
  | some r =>
    if r.status ≠ ReqStatus.PENDING then (ResolveResult.notFound, st)
    else
      match action with
      | ResolveAction.accept =>
        (ResolveResult.resolved ReqStatus.ACCEPTED,
         { st with
           joinRequests := st.joinRequests.map (fun q =>
             if q.id == requestId then { q with status := ReqStatus.ACCEPTED } else q),
           memberships := st.memberships ++ [⟨groupId, r.userId, Role.MEMBER⟩] })
      | ResolveAction.decline =>
        (ResolveResult.resolved ReqStatus.DECLINED,
         { st with joinRequests := st.joinRequests.map (fun q =>
             if q.id == requestId then { q with status := ReqStatus.DECLINED } else q) })

/-- One lifecycle operation against the store, for stating the uniqueness
invariant over arbitrary operation sequences. -/
inductive LifecycleOp where
  | create (session : Option String) (groupIdParam : Option String)
      (upsertFails : Bool) (sendOk : String → Bool)
  | resolve (groupId : String) (requestId : Nat) (action : ResolveAction)

/-- Apply one lifecycle operation, keeping only the store it leaves. -/
def applyOp (st : Store) : LifecycleOp → Store
  | LifecycleOp.create s g uf ok => (createJoinRequest st s g uf ok).store
  | LifecycleOp.resolve g r a => (resolveJoinRequest st g r a).2

/-- Run a sequence of lifecycle operations left to right. -/
def runOps (st : Store) (ops : List LifecycleOp) : Store :=
  ops.foldl applyOp st

/-- The uniqueness invariant of the join-request table: no two rows share
the (groupId, userId) pair. -/
def noDupPair (rows : List JoinRequestRow) : Prop :=
  rows.Pairwise (fun a b => a.groupId ≠ b.groupId ∨ a.userId ≠ b.userId)

instance (rows : List JoinRequestRow) : Decidable (noDupPair rows) :=
  inferInstanceAs (Decidable (List.Pairwise _ rows))

/-- Number of join-request rows for the pair (g, u) whose status is
PENDING. -/
def countPendingPair (st : Store) (g u : String) : Nat :=
  (st.joinRequests.filter (fun r => pairMatch g u r && r.status == ReqStatus.PENDING)).length

/-- The view model of one pending request in the client component. -/
structure JoinRequestView where
  id : String
  userId : String
  userName : Option String
  userImage : Option String
  userEmail : Option String
deriving DecidableEq, Repr

/-- The state update handleRequestAction performs on the displayed list:
when the PUT response is ok, setRequests filters out the entry whose id is
requestId after the success toast; when it is not ok, the catch branch
only raises an error toast and the list is untouched. -/
def handleRequestAction (requests : List JoinRequestView) (requestId : String)
    (responseOk : Bool) : List JoinRequestView :=
  if responseOk then requests.filter (fun req => req.id != requestId)
  else requests

/-- A concrete store used to exercise the operations: group g1 named
BookClub, admin alice with an email, user bob, no join requests yet. -/
def sampleStore : Store :=
  { groups := [⟨"g1", "BookClub"⟩]
    users := [⟨"alice", some "Alice", some "alice@x.com"⟩, ⟨"bob", some "Bob", none⟩]
    memberships := [⟨"g1", "alice", Role.ADMIN⟩]
    joinRequests := []
    nextId := 0 }

/-- The sample store after bob's request was declined: a DECLINED row for
the pair (g1, bob). -/
def sampleStoreDeclined : Store :=
  { sampleStore with joinRequests := [⟨0, "g1", "bob", ReqStatus.DECLINED⟩], nextId := 1 }

/-- The sample store with a PENDING request of bob for g1. -/
def sampleStorePending : Store :=
  { sampleStore with joinRequests := [⟨0, "g1", "bob", ReqStatus.PENDING⟩], nextId := 1 }

theorem pairMatch_iff {g u : String} {r : JoinRequestRow} :
    pairMatch g u r = true ↔ r.groupId = g ∧ r.userId = u := by
  simp [pairMatch]

theorem upsert_groups (st : Store) (g u : String) :
    (upsertJoinRequest st g u).groups = st.groups := by
  unfold upsertJoinRequest; split <;> rfl

theorem upsert_memberships (st : Store) (g u : String) :
    (upsertJoinRequest st g u).memberships = st.memberships := by
  unfold upsertJoinRequest; split <;> rfl

theorem upsert_users (st : Store) (g u : String) :
    (upsertJoinRequest st g u).users = st.users := by
  unfold upsertJoinRequest; split <;> rfl

theorem findGroup_upsert (st : Store) (g u g' : String) :
    findGroup (upsertJoinRequest st g u) g' = findGroup st g' := by
  unfold findGroup; rw [upsert_groups]

theorem findMembership_upsert (st : Store) (g u g' u' : String) :
    findMembership (upsertJoinRequest st g u) g' u' = findMembership st g' u' := by
  unfold findMembership; rw [upsert_memberships]

theorem pairMatch_setPending (g u : String) (r : JoinRequestRow) :
    pairMatch g u (if pairMatch g u r then { r with status := ReqStatus.PENDING } else r) =
      pairMatch g u r := by
  by_cases h : pairMatch g u r = true
  · simp only [h, if_true]
    simpa [pairMatch] using (by simpa [pairMatch] using h : r.groupId == g && r.userId == u)
  · simp only [Bool.not_eq_true] at h
    simp [h]

theorem findJoinRequest_upsert (st : Store) (g u : String) :
    ∃ row, findJoinRequest (upsertJoinRequest st g u) g u = some row ∧
      row.status = ReqStatus.PENDING ∧ row.groupId = g ∧ row.userId = u := by
  unfold upsertJoinRequest
  by_cases h : (findJoinRequest st g u).isSome
  · rw [if_pos h]
    obtain ⟨r, hr⟩ := Option.isSome_iff_exists.mp h
    have hpr : pairMatch g u r = true := List.find?_some hr
    refine ⟨{ r with status := ReqStatus.PENDING }, ?_, rfl, (pairMatch_iff.mp hpr).1,
      (pairMatch_iff.mp hpr).2⟩
    show (st.joinRequests.map _).find? (pairMatch g u) = _
    rw [List.find?_map]
    have hcomp : (pairMatch g u ∘ fun r =>
        if pairMatch g u r then { r with status := ReqStatus.PENDING } else r) =
        pairMatch g u := by
      funext x; exact pairMatch_setPending g u x
    rw [hcomp]
    unfold findJoinRequest at hr
    rw [hr]
    simp [hpr]
  · rw [if_neg h]
    refine ⟨⟨st.nextId, g, u, ReqStatus.PENDING⟩, ?_, rfl, rfl, rfl⟩
    show (st.joinRequests ++ [_]).find? (pairMatch g u) = _
    rw [List.find?_append]
    have hn : findJoinRequest st g u = none := Option.not_isSome_iff_eq_none.mp h
    unfold findJoinRequest at hn
    rw [hn]
    simp [pairMatch]

theorem filter_pendingPair_update_length (g u : String) (l : List JoinRequestRow) :
    ((l.map (fun r => if pairMatch g u r then { r with status := ReqStatus.PENDING } else r)).filter
      (fun r => pairMatch g u r && r.status == ReqStatus.PENDING)).length =
    (l.filter (pairMatch g u)).length := by
  induction l with
  | nil => rfl
  | cons a tl ih =>
    have hfix : ∀ s : ReqStatus, pairMatch g u { a with status := s } = pairMatch g u a :=
      fun _ => rfl
    by_cases h : pairMatch g u a = true
    · simp [List.filter_cons, h, hfix, ih]
    · simp only [Bool.not_eq_true] at h
      simp [List.filter_cons, h, ih]

theorem length_filter_pair_eq_one (g u : String) :
    ∀ l : List JoinRequestRow, noDupPair l → ∀ r ∈ l, pairMatch g u r = true →
      (l.filter (pairMatch g u)).length = 1 := by
  intro l
  induction l with
  | nil => intro _ r hr; cases hr
  | cons a tl ih =>
    intro hInv r hr hp
    unfold noDupPair at hInv
    rw [List.pairwise_cons] at hInv
    obtain ⟨ha, htl⟩ := hInv
    rcases List.mem_cons.mp hr with rfl | hrtl
    · have hfa : ∀ b ∈ tl, ¬(pairMatch g u b = true) := by
        intro b hb hpb
        obtain ⟨hg1, hu1⟩ := pairMatch_iff.mp hp
        obtain ⟨hg2, hu2⟩ := pairMatch_iff.mp hpb
        rcases ha b hb with hne | hne
        · exact hne (hg1.trans hg2.symm)
        · exact hne (hu1.trans hu2.symm)
      rw [List.filter_cons_of_pos hp, List.filter_eq_nil_iff.mpr hfa]
      rfl
    · have hpa : ¬(pairMatch g u a = true) := by
        intro hpa
        obtain ⟨hg1, hu1⟩ := pairMatch_iff.mp hpa
        obtain ⟨hg2, hu2⟩ := pairMatch_iff.mp hp
        rcases ha r hrtl with hne | hne
        · exact hne (hg1.trans hg2.symm)
        · exact hne (hu1.trans hu2.symm)
      rw [List.filter_cons_of_neg (Bool.not_eq_true _ ▸ hpa)]
      exact ih htl r hrtl hp

theorem countPendingPair_upsert (st : Store) (g u : String)
    (hInv : noDupPair st.joinRequests) :
    countPendingPair (upsertJoinRequest st g u) g u = 1 := by
  unfold countPendingPair upsertJoinRequest
  by_cases h : (findJoinRequest st g u).isSome
  · rw [if_pos h]
    obtain ⟨r, hr⟩ := Option.isSome_iff_exists.mp h
    unfold findJoinRequest at hr
    have hpr : pairMatch g u r = true := List.find?_some hr
    have hmem : r ∈ st.joinRequests := List.mem_of_find?_eq_some hr
    show (List.filter _ (List.map _ _)).length = 1
    rw [filter_pendingPair_update_length]
    exact length_filter_pair_eq_one g u st.joinRequests hInv r hmem hpr
  · rw [if_neg h]
    have hn : findJoinRequest st g u = none := Option.not_isSome_iff_eq_none.mp h
    unfold findJoinRequest at hn
    have hall := List.find?_eq_none.mp hn
    show (List.filter _ (_ ++ [_])).length = 1
    rw [List.filter_append]
    have h1 : st.joinRequests.filter
        (fun r => pairMatch g u r && r.status == ReqStatus.PENDING) = [] := by
      refine List.filter_eq_nil_iff.mpr (fun b hb => ?_)
      have := hall b hb
      simp only [Bool.not_eq_true] at this
      simp [this]
    rw [h1]
    simp [pairMatch]

theorem noDupPair_map (l : List JoinRequestRow) (f : JoinRequestRow → JoinRequestRow)
    (hf : ∀ r, (f r).groupId = r.groupId ∧ (f r).userId = r.userId)
    (h : noDupPair l) : noDupPair (l.map f) := by
  unfold noDupPair at *
  rw [List.pairwise_map]
  refine h.imp ?_
  intro a b hab
  rcases hab with h1 | h1
  · exact Or.inl (by rw [(hf a).1, (hf b).1]; exact h1)
  · exact Or.inr (by rw [(hf a).2, (hf b).2]; exact h1)

theorem noDupPair_upsert (st : Store) (g u : String) (h : noDupPair st.joinRequests) :
    noDupPair (upsertJoinRequest st g u).joinRequests := by
  unfold upsertJoinRequest
  by_cases hs : (findJoinRequest st g u).isSome
  · rw [if_pos hs]
    exact noDupPair_map _ _
      (fun r => by by_cases hp : pairMatch g u r = true <;> simp [hp]) h
  · rw [if_neg hs]
    show noDupPair (st.joinRequests ++ [_])
    unfold noDupPair at h ⊢
    rw [List.pairwise_append]
    refine ⟨h, List.pairwise_singleton _ _, ?_⟩
    intro a ha b hb
    rw [List.mem_singleton] at hb
    subst hb
    have hn : findJoinRequest st g u = none := Option.not_isSome_iff_eq_none.mp hs
    unfold findJoinRequest at hn
    have hna := List.find?_eq_none.mp hn a ha
    have : ¬(a.groupId = g ∧ a.userId = u) := fun hc => hna (pairMatch_iff.mpr hc)
    exact not_and_or.mp this

theorem create_store_cases (st : Store) (s gp : Option String) (uf : Bool)
    (ok : String → Bool) :
    (createJoinRequest st s gp uf ok).store = st ∨
    ∃ g u, (createJoinRequest st s gp uf ok).store = upsertJoinRequest st g u := by
  unfold createJoinRequest createUpsertStep
  rcases s with _ | u
  · exact Or.inl rfl
  rcases gp with _ | g
  · exact Or.inl rfl
  dsimp only
  by_cases hg : g = ""
  · rw [if_pos hg]; exact Or.inl rfl
  rw [if_neg hg]
  cases hG : findGroup st g with
  | none => exact Or.inl rfl
  | some grp =>
    dsimp only
    by_cases hm : (findMembership st g u).isSome
    · rw [if_pos hm]; exact Or.inl rfl
    rw [if_neg hm]
    cases hr : findJoinRequest st g u with
    | none =>
      dsimp only
      by_cases huf : uf = true
      · rw [if_pos huf]; exact Or.inl rfl
      · rw [if_neg huf]; exact Or.inr ⟨g, u, rfl⟩
    | some r =>
      dsimp only
      by_cases hrp : r.status = ReqStatus.PENDING
      · rw [if_pos hrp]; exact Or.inl rfl
      rw [if_neg hrp]
      by_cases huf : uf = true
      · rw [if_pos huf]; exact Or.inl rfl
      · rw [if_neg huf]; exact Or.inr ⟨g, u, rfl⟩

theorem noDupPair_create (st : Store) (s gp : Option String) (uf : Bool)
    (ok : String → Bool) (h : noDupPair st.joinRequests) :
    noDupPair (createJoinRequest st s gp uf ok).store.joinRequests := by
  rcases create_store_cases st s gp uf ok with he | ⟨g, u, he⟩
  · rw [he]; exact h
  · rw [he]; exact noDupPair_upsert st g u h

theorem noDupPair_resolve (st : Store) (g : String) (rid : Nat) (a : ResolveAction)
    (h : noDupPair st.joinRequests) :
    noDupPair ((resolveJoinRequest st g rid a).2).joinRequests := by
  unfold resolveJoinRequest
  cases hf : st.joinRequests.find? (fun r => r.id == rid && r.groupId == g) with
  | none => exact h
  | some r =>
    dsimp only
    by_cases hp : r.status ≠ ReqStatus.PENDING
    · rw [if_pos hp]; exact h
    rw [if_neg hp]
    cases a with
    | accept =>
      exact noDupPair_map _ _
        (fun q => by by_cases hq : (q.id == rid) = true <;> simp [hq]) h
    | decline =>
      exact noDupPair_map _ _
        (fun q => by by_cases hq : (q.id == rid) = true <;> simp [hq]) h

theorem noDupPair_runOps (ops : List LifecycleOp) :
    ∀ st : Store, noDupPair st.joinRequests → noDupPair (runOps st ops).joinRequests := by
  induction ops with
  | nil => intro st h; exact h
  | cons op tl ih =>
    intro st h
    show noDupPair (runOps (applyOp st op) tl).joinRequests
    apply ih
    cases op with
    | create s g uf ok => exact noDupPair_create st s g uf ok h
    | resolve g r a => exact noDupPair_resolve st g r a h

theorem create_cases (st : Store) (s gp : Option String) (uf : Bool) :
    (∃ U G, s = some U ∧ gp = some G ∧ ∀ ok : String → Bool,
        createJoinRequest st s gp uf ok =
          ⟨CreateResult.created, upsertJoinRequest st G U, adminEmails st G,
            (adminEmails st G).filter (fun e => !ok e)⟩) ∨
    (∃ e, e ≠ CreateResult.created ∧ ∀ ok : String → Bool,
        createJoinRequest st s gp uf ok = ⟨e, st, [], []⟩) := by
  rcases s with _ | U
  · exact Or.inr ⟨CreateResult.unauthorized, by decide, fun ok => rfl⟩
  rcases gp with _ | G
  · exact Or.inr ⟨CreateResult.missingGroupId, by decide, fun ok => rfl⟩
  by_cases hg : G = ""
  · refine Or.inr ⟨CreateResult.missingGroupId, by decide, fun ok => ?_⟩
    unfold createJoinRequest
    dsimp only
    rw [if_pos hg]
  cases hG : findGroup st G with
  | none =>
    refine Or.inr ⟨CreateResult.groupNotFound, by decide, fun ok => ?_⟩
    unfold createJoinRequest
    dsimp only
    rw [if_neg hg, hG]
  | some grp =>
    by_cases hm : (findMembership st G U).isSome
    · refine Or.inr ⟨CreateResult.alreadyMember, by decide, fun ok => ?_⟩
      unfold createJoinRequest
      dsimp only
      rw [if_neg hg, hG]
      dsimp only
      rw [if_pos hm]
    · cases hr : findJoinRequest st G U with
      | some r =>
        by_cases hrp : r.status = ReqStatus.PENDING
        · refine Or.inr ⟨CreateResult.alreadyPending, by decide, fun ok => ?_⟩
          unfold createJoinRequest
          dsimp only
          rw [if_neg hg, hG]
          dsimp only
          rw [if_neg hm, hr]
          dsimp only
          rw [if_pos hrp]
        · by_cases huf : uf = true
          · refine Or.inr ⟨CreateResult.internalError, by decide, fun ok => ?_⟩
            unfold createJoinRequest createUpsertStep
            dsimp only
            rw [if_neg hg, hG]
            dsimp only
            rw [if_neg hm, hr]
            dsimp only
            rw [if_neg hrp, if_pos huf]
          · refine Or.inl ⟨U, G, rfl, rfl, fun ok => ?_⟩
            unfold createJoinRequest createUpsertStep
            dsimp only
            rw [if_neg hg, hG]
            dsimp only
            rw [if_neg hm, hr]
            dsimp only
            rw [if_neg hrp, if_neg huf]
      | none =>
        by_cases huf : uf = true
        · refine Or.inr ⟨CreateResult.internalError, by decide, fun ok => ?_⟩
          unfold createJoinRequest createUpsertStep
          dsimp only
          rw [if_neg hg, hG]
          dsimp only
          rw [if_neg hm, hr]
          dsimp only
          rw [if_pos huf]
        · refine Or.inl ⟨U, G, rfl, rfl, fun ok => ?_⟩
          unfold createJoinRequest createUpsertStep
          dsimp only
          rw [if_neg hg, hG]
          dsimp only
          rw [if_neg hm, hr]
          dsimp only
          rw [if_neg huf]

theorem createJoinRequest_created (st : Store) (U G : String) (ok : String → Bool)
    (hg : G ≠ "") (hG : (findGroup st G).isSome)
    (hm : findMembership st G U = none)
    (hp : ∀ r ∈ st.joinRequests, pairMatch G U r = true → r.status ≠ ReqStatus.PENDING) :
    createJoinRequest st (some U) (some G) false ok =
      ⟨CreateResult.created, upsertJoinRequest st G U, adminEmails st G,
        (adminEmails st G).filter (fun e => !ok e)⟩ := by
  obtain ⟨grp, hGrp⟩ := Option.isSome_iff_exists.mp hG
  have hm' : ¬(findMembership st G U).isSome := by rw [hm]; exact Bool.false_ne_true
  unfold createJoinRequest createUpsertStep
  dsimp only
  rw [if_neg hg, hGrp]
  dsimp only
  rw [if_neg hm']
  cases hr : findJoinRequest st G U with
  | none =>
    dsimp only
    rw [if_neg (Bool.false_ne_true)]
  | some r =>
    have hmem : r ∈ st.joinRequests := by
      unfold findJoinRequest at hr
      exact List.mem_of_find?_eq_some hr
    have hpr : pairMatch G U r = true := by
      unfold findJoinRequest at hr
      exact List.find?_some hr
    dsimp only
    rw [if_neg (hp r hmem hpr), if_neg (Bool.false_ne_true)]

theorem createJoinRequest_alreadyPending (st : Store) (U G : String) (uf : Bool)
    (ok : String → Bool) (hg : G ≠ "") (hG : (findGroup st G).isSome)
    (hm : findMembership st G U = none)
    (hr : ∃ r, findJoinRequest st G U = some r ∧ r.status = ReqStatus.PENDING) :
    createJoinRequest st (some U) (some G) uf ok =
      ⟨CreateResult.alreadyPending, st, [], []⟩ := by
  obtain ⟨grp, hGrp⟩ := Option.isSome_iff_exists.mp hG
  obtain ⟨r, hfind, hpend⟩ := hr
  have hm' : ¬(findMembership st G U).isSome = true := by rw [hm]; exact Bool.false_ne_true
  unfold createJoinRequest
  dsimp only
  rw [if_neg hg, hGrp]
  dsimp only
  rw [if_neg hm', hfind]
  dsimp only
  rw [if_pos hpend]

theorem find?_pair_unique {l : List JoinRequestRow} {g u : String} {r q : JoinRequestRow}
    (hInv : noDupPair l) (hr : l.find? (pairMatch g u) = some r)
    (hq : q ∈ l) (hpm : pairMatch g u q = true) : q = r := by
  by_contra hne
  have hrmem : r ∈ l := List.mem_of_find?_eq_some hr
  have hrpm : pairMatch g u r = true := List.find?_some hr
  have hsym : Symmetric (fun a b : JoinRequestRow =>
      a.groupId ≠ b.groupId ∨ a.userId ≠ b.userId) :=
    fun a b h => h.imp Ne.symm Ne.symm
  have hrel := (List.Pairwise.forall hsym hInv) hq hrmem hne
  obtain ⟨hg1, hu1⟩ := pairMatch_iff.mp hpm
  obtain ⟨hg2, hu2⟩ := pairMatch_iff.mp hrpm
  rcases hrel with h1 | h1
  · exact h1 (hg1.trans hg2.symm)
  · exact h1 (hu1.trans hu2.symm)

theorem findJoinRequest_upsert_of_some (st : Store) (g u : String) (r : JoinRequestRow)
    (hr : findJoinRequest st g u = some r) :
    findJoinRequest (upsertJoinRequest st g u) g u =
      some { r with status := ReqStatus.PENDING } := by
  have hs : (findJoinRequest st g u).isSome := by rw [hr]; rfl
  have hpr : pairMatch g u r = true := by
    unfold findJoinRequest at hr
    exact List.find?_some hr
  unfold upsertJoinRequest
  rw [if_pos hs]
  show (st.joinRequests.map _).find? (pairMatch g u) = _
  rw [List.find?_map]
  have hcomp : (pairMatch g u ∘ fun x =>
      if pairMatch g u x then { x with status := ReqStatus.PENDING } else x) =
      pairMatch g u := by
    funext x; exact pairMatch_setPending g u x
  rw [hcomp]
  unfold findJoinRequest at hr
  rw [hr]
  simp [hpr]

theorem upsert_length_of_some (st : Store) (g u : String)
    (h : (findJoinRequest st g u).isSome) :
    (upsertJoinRequest st g u).joinRequests.length = st.joinRequests.length := by
  unfold upsertJoinRequest
  rw [if_pos h]
  exact List.length_map _ _

theorem resolve_find_some_pending (st : Store) (G : String) (R : Nat)
    (r : JoinRequestRow)
    (hf : st.joinRequests.find? (fun q => q.id == R && q.groupId == G) = some r)
    (hp : r.status = ReqStatus.PENDING) (a : ResolveAction) :
    resolveJoinRequest st G R a =
      match a with
      | ResolveAction.accept =>
        (ResolveResult.resolved ReqStatus.ACCEPTED,
         { st with
           joinRequests := st.joinRequests.map (fun q =>
             if q.id == R then { q with status := ReqStatus.ACCEPTED } else q),
           memberships := st.memberships ++ [⟨G, r.userId, Role.MEMBER⟩] })
      | ResolveAction.decline =>
        (ResolveResult.resolved ReqStatus.DECLINED,
         { st with joinRequests := st.joinRequests.map (fun q =>
             if q.id == R then { q with status := ReqStatus.DECLINED } else q) }) := by
  have hnp : ¬(r.status ≠ ReqStatus.PENDING) := by simp [hp]
  unfold resolveJoinRequest
  rw [hf]
  dsimp only
  rw [if_neg hnp]

theorem create_cases_some (st : Store) (U G : String) (uf : Bool) :
    (∀ ok : String → Bool,
        createJoinRequest st (some U) (some G) uf ok =
          ⟨CreateResult.created, upsertJoinRequest st G U, adminEmails st G,
            (adminEmails st G).filter (fun e => !ok e)⟩) ∨
    (∃ e, e ≠ CreateResult.created ∧ ∀ ok : String → Bool,
        createJoinRequest st (some U) (some G) uf ok = ⟨e, st, [], []⟩) := by
  rcases create_cases st (some U) (some G) uf with ⟨U', G', hU, hG, hall⟩ | h
  · left
    injection hU with hU
    injection hG with hG
    subst hU
    subst hG
    exact hall
  · right
    exact h

/-- C1: for every group G and user U the store holds at most one
join-request row for the pair (G, U) after any sequence of create and
resolve operations: when the pair-uniqueness invariant noDupPair holds of
the initial store, it holds after running any operation sequence, because
create writes through the upsert keyed on (groupId, userId). -/
theorem joinRequest_pair_unique_after_ops (st : Store) (ops : List LifecycleOp)
    (h : noDupPair st.joinRequests) : noDupPair (runOps st ops).joinRequests :=
  noDupPair_runOps ops st h

theorem joinRequest_pair_unique_after_ops_witness :
    noDupPair (runOps sampleStore
      [LifecycleOp.create (some "bob") (some "g1") false (fun _ => true),
       LifecycleOp.create (some "bob") (some "g1") false (fun _ => true),
       LifecycleOp.resolve "g1" 0 ResolveAction.accept]).joinRequests :=
  joinRequest_pair_unique_after_ops sampleStore _ (by decide)

/-- C2: for a group G that exists and a user U with no membership and no
pending request, calling create twice in immediate succession makes the
first call succeed, makes the second call fail alreadyPending with HTTP
400 leaving the store unchanged, and leaves exactly one PENDING record for
the pair (G, U). -/
theorem create_twice_second_conflict (st : Store) (G U : String)
    (ok ok' : String → Bool) (hg : G ≠ "") (hG : (findGroup st G).isSome)
    (hm : findMembership st G U = none)
    (hp : ∀ r ∈ st.joinRequests, pairMatch G U r = true → r.status ≠ ReqStatus.PENDING)
    (hInv : noDupPair st.joinRequests) :
    (createJoinRequest st (some U) (some G) false ok).result = CreateResult.created ∧
    createJoinRequest (createJoinRequest st (some U) (some G) false ok).store
        (some U) (some G) false ok' =
      ⟨CreateResult.alreadyPending,
       (createJoinRequest st (some U) (some G) false ok).store, [], []⟩ ∧
    createHttpStatus CreateResult.alreadyPending = 400 ∧
    countPendingPair (createJoinRequest st (some U) (some G) false ok).store G U = 1 := by
  have h1 := createJoinRequest_created st U G ok hg hG hm hp
  refine ⟨by rw [h1], ?_, rfl, by rw [h1]; exact countPendingPair_upsert st G U hInv⟩
  have hstore : (createJoinRequest st (some U) (some G) false ok).store =
      upsertJoinRequest st G U := by rw [h1]
  rw [hstore]
  apply createJoinRequest_alreadyPending
  · exact hg
  · rw [findGroup_upsert]; exact hG
  · rw [findMembership_upsert]; exact hm
  · obtain ⟨row, hrow, hpend, _, _⟩ := findJoinRequest_upsert st G U
    exact ⟨row, hrow, hpend⟩

theorem create_twice_second_conflict_witness :
    (createJoinRequest sampleStore (some "bob") (some "g1") false
        (fun _ => true)).result = CreateResult.created ∧
    createJoinRequest (createJoinRequest sampleStore (some "bob") (some "g1") false
        (fun _ => true)).store (some "bob") (some "g1") false (fun _ => true) =
      ⟨CreateResult.alreadyPending,
       (createJoinRequest sampleStore (some "bob") (some "g1") false
         (fun _ => true)).store, [], []⟩ ∧
    createHttpStatus CreateResult.alreadyPending = 400 ∧
    countPendingPair (createJoinRequest sampleStore (some "bob") (some "g1") false
        (fun _ => true)).store "g1" "bob" = 1 :=
  create_twice_second_conflict sampleStore "g1" "bob" (fun _ => true) (fun _ => true)
    (by decide) (by decide) (by decide) (by decide) (by decide)

/-- C3: for a group G that exists, create fails alreadyMember with HTTP
400 and writes nothing whenever a membership row for (G, U) exists; the
join-request table of the store is universally quantified, so the failure
holds regardless of the (G, U) join-request history, including when an
existing request is ACCEPTED or DECLINED. -/
theorem create_already_member_conflict (st : Store) (U G : String) (uf : Bool)
    (ok : String → Bool) (hg : G ≠ "") (hG : (findGroup st G).isSome)
    (hm : (findMembership st G U).isSome) :
    createJoinRequest st (some U) (some G) uf ok =
      ⟨CreateResult.alreadyMember, st, [], []⟩ ∧
    createHttpStatus CreateResult.alreadyMember = 400 := by
  obtain ⟨grp, hGrp⟩ := Option.isSome_iff_exists.mp hG
  refine ⟨?_, rfl⟩
  unfold createJoinRequest
  dsimp only
  rw [if_neg hg, hGrp]
  dsimp only
  rw [if_pos hm]

theorem create_already_member_conflict_witness :
    createJoinRequest sampleStore (some "alice") (some "g1") false (fun _ => true) =
      ⟨CreateResult.alreadyMember, sampleStore, [], []⟩ ∧
    createHttpStatus CreateResult.alreadyMember = 400 :=
  create_already_member_conflict sampleStore "alice" "g1" false (fun _ => true)
    (by decide) (by decide) (by decide)

/-- C4: when the existing join request of (G, U) is DECLINED and no
membership exists, create succeeds and reuses the same record identity:
the row count of the join-request table is unchanged and the row found for
(G, U) afterwards is the prior row with its id intact and its status
overwritten to PENDING. -/
theorem create_reopens_declined (st : Store) (U G : String) (ok : String → Bool)
    (r : JoinRequestRow) (hg : G ≠ "") (hG : (findGroup st G).isSome)
    (hm : findMembership st G U = none)
    (hr : findJoinRequest st G U = some r)
    (hd : r.status = ReqStatus.DECLINED)
    (hInv : noDupPair st.joinRequests) :
    (createJoinRequest st (some U) (some G) false ok).result = CreateResult.created ∧
    (createJoinRequest st (some U) (some G) false ok).store.joinRequests.length =
      st.joinRequests.length ∧
    findJoinRequest (createJoinRequest st (some U) (some G) false ok).store G U =
      some { r with status := ReqStatus.PENDING } := by
  have hp : ∀ q ∈ st.joinRequests, pairMatch G U q = true →
      q.status ≠ ReqStatus.PENDING := by
    intro q hq hpm hcon
    have hq_eq : q = r := by
      apply find?_pair_unique hInv _ hq hpm
      unfold findJoinRequest at hr
      exact hr
    rw [hq_eq, hd] at hcon
    exact absurd hcon (by decide)
  have h1 := createJoinRequest_created st U G ok hg hG hm hp
  have hs : (findJoinRequest st G U).isSome := by rw [hr]; rfl
  refine ⟨by rw [h1], ?_, ?_⟩
  · rw [h1]
    exact upsert_length_of_some st G U hs
  · rw [h1]
    exact findJoinRequest_upsert_of_some st G U r hr

theorem create_reopens_declined_witness :
    (createJoinRequest sampleStoreDeclined (some "bob") (some "g1") false
        (fun _ => true)).result = CreateResult.created ∧
    (createJoinRequest sampleStoreDeclined (some "bob") (some "g1") false
        (fun _ => true)).store.joinRequests.length =
      sampleStoreDeclined.joinRequests.length ∧
    findJoinRequest (createJoinRequest sampleStoreDeclined (some "bob") (some "g1")
        false (fun _ => true)).store "g1" "bob" =
      some ⟨0, "g1", "bob", ReqStatus.PENDING⟩ :=
  create_reopens_declined sampleStoreDeclined "bob" "g1" (fun _ => true)
    ⟨0, "g1", "bob", ReqStatus.DECLINED⟩ (by decide) (by decide) (by decide)
    (by decide) (by decide) (by decide)

/-- C5: when create succeeds, every group admin with a known email is
attempted regardless of which sends fail, and the result, the stored state
and the attempt list are independent of the notification outcomes: with
any other transport behaviour create still returns created (HTTP 201) with
the same store and the same attempts, per-recipient failure being only
logged in failedLogged. -/
theorem create_notifications_independent (st : Store) (U G : String) (uf : Bool)
    (ok ok' : String → Bool)
    (h : (createJoinRequest st (some U) (some G) uf ok).result = CreateResult.created) :
    (createJoinRequest st (some U) (some G) uf ok).attempted = adminEmails st G ∧
    (createJoinRequest st (some U) (some G) uf ok').result = CreateResult.created ∧
    createHttpStatus (createJoinRequest st (some U) (some G) uf ok').result = 201 ∧
    (createJoinRequest st (some U) (some G) uf ok').store =
      (createJoinRequest st (some U) (some G) uf ok).store ∧
    (createJoinRequest st (some U) (some G) uf ok').attempted =
      (createJoinRequest st (some U) (some G) uf ok).attempted := by
  rcases create_cases_some st U G uf with hall | ⟨e, hne, hall⟩
  · rw [hall ok, hall ok']
    exact ⟨rfl, rfl, rfl, rfl, rfl⟩
  · rw [hall ok] at h
    exact absurd h hne

theorem create_notifications_independent_witness :
    (createJoinRequest sampleStore (some "bob") (some "g1") false
        (fun _ => false)).attempted = adminEmails sampleStore "g1" ∧
    (createJoinRequest sampleStore (some "bob") (some "g1") false
        (fun _ => true)).result = CreateResult.created ∧
    createHttpStatus (createJoinRequest sampleStore (some "bob") (some "g1") false
        (fun _ => true)).result = 201 ∧
    (createJoinRequest sampleStore (some "bob") (some "g1") false
        (fun _ => true)).store =
      (createJoinRequest sampleStore (some "bob") (some "g1") false
        (fun _ => false)).store ∧
    (createJoinRequest sampleStore (some "bob") (some "g1") false
        (fun _ => true)).attempted =
      (createJoinRequest sampleStore (some "bob") (some "g1") false
        (fun _ => false)).attempted :=
  create_notifications_independent sampleStore "bob" "g1" false (fun _ => false)
    (fun _ => true) (by decide)

/-- C6: resolve fails notFound with HTTP 404, leaving the store unchanged,
whenever no join request of group G with id R and status PENDING exists:
both when no request with that id exists in that group and when the
matching request is already ACCEPTED or DECLINED, resolving is rejected
rather than treated as a no-op. -/
theorem resolve_notFound_nonpending (st : Store) (G : String) (R : Nat)
    (a : ResolveAction)
    (h : ∀ r ∈ st.joinRequests, ¬(r.id = R ∧ r.groupId = G ∧ r.status = ReqStatus.PENDING)) :
    resolveJoinRequest st G R a = (ResolveResult.notFound, st) ∧
    resolveHttpStatus (resolveJoinRequest st G R a).1 = 404 := by
  have main : resolveJoinRequest st G R a = (ResolveResult.notFound, st) := by
    unfold resolveJoinRequest
    cases hf : st.joinRequests.find? (fun r => r.id == R && r.groupId == G) with
    | none => rfl
    | some r =>
      dsimp only
      have hmem := List.mem_of_find?_eq_some hf
      have hpred := List.find?_some hf
      simp only [Bool.and_eq_true, beq_iff_eq] at hpred
      have hne : r.status ≠ ReqStatus.PENDING :=
        fun hs => h r hmem ⟨hpred.1, hpred.2, hs⟩
      rw [if_pos hne]
  exact ⟨main, by rw [main]; rfl⟩

theorem resolve_notFound_nonpending_witness :
    resolveJoinRequest sampleStoreDeclined "g1" 0 ResolveAction.accept =
      (ResolveResult.notFound, sampleStoreDeclined) ∧
    resolveHttpStatus
      (resolveJoinRequest sampleStoreDeclined "g1" 0 ResolveAction.accept).1 = 404 :=
  resolve_notFound_nonpending sampleStoreDeclined "g1" 0 ResolveAction.accept (by decide)

/-- C7: accepting a PENDING join request of user U in group G returns
resolved ACCEPTED with HTTP 200 and, in the one resulting store, both sets
that row's status to ACCEPTED and appends the membership (G, U, MEMBER):
the two effects are produced together by the same transition, so neither
can be present without the other. -/
theorem resolve_accept_transactional (st : Store) (G : String) (R : Nat)
    (r : JoinRequestRow)
    (hf : st.joinRequests.find? (fun q => q.id == R && q.groupId == G) = some r)
    (hp : r.status = ReqStatus.PENDING) :
    (resolveJoinRequest st G R ResolveAction.accept).1 =
      ResolveResult.resolved ReqStatus.ACCEPTED ∧
    resolveHttpStatus (resolveJoinRequest st G R ResolveAction.accept).1 = 200 ∧
    ({ r with status := ReqStatus.ACCEPTED } : JoinRequestRow) ∈
      (resolveJoinRequest st G R ResolveAction.accept).2.joinRequests ∧
    (⟨G, r.userId, Role.MEMBER⟩ : MembershipRow) ∈
      (resolveJoinRequest st G R ResolveAction.accept).2.memberships := by
  have heq := resolve_find_some_pending st G R r hf hp ResolveAction.accept
  have hpred := List.find?_some hf
  simp only [Bool.and_eq_true, beq_iff_eq] at hpred
  have hmem : r ∈ st.joinRequests := List.mem_of_find?_eq_some hf
  refine ⟨by rw [heq], by rw [heq]; rfl, ?_, ?_⟩
  · rw [heq]
    dsimp only
    have h1 := List.mem_map_of_mem
      (fun q => if q.id == R then { q with status := ReqStatus.ACCEPTED } else q) hmem
    dsimp only at h1
    rw [if_pos (beq_iff_eq.mpr hpred.1)] at h1
    exact h1
  · rw [heq]
    dsimp only
    exact List.mem_append_right _ (List.mem_singleton.mpr rfl)

theorem resolve_accept_transactional_witness :
    (resolveJoinRequest sampleStorePending "g1" 0 ResolveAction.accept).1 =
      ResolveResult.resolved ReqStatus.ACCEPTED ∧
    resolveHttpStatus
      (resolveJoinRequest sampleStorePending "g1" 0 ResolveAction.accept).1 = 200 ∧
    (⟨0, "g1", "bob", ReqStatus.ACCEPTED⟩ : JoinRequestRow) ∈
      (resolveJoinRequest sampleStorePending "g1" 0 ResolveAction.accept).2.joinRequests ∧
    (⟨"g1", "bob", Role.MEMBER⟩ : MembershipRow) ∈
      (resolveJoinRequest sampleStorePending "g1" 0 ResolveAction.accept).2.memberships :=
  resolve_accept_transactional sampleStorePending "g1" 0
    ⟨0, "g1", "bob", ReqStatus.PENDING⟩ (by decide) (by decide)

/-- C8: after a successful resolve response the client handler removes
from the displayed list exactly the entries whose id is the resolved
request id, keeping every other entry and their relative order (the result
is a sublist of the original); after a failed response the displayed list
is unchanged. -/
theorem handleRequestAction_frame (reqs : List JoinRequestView) (R : String) :
    handleRequestAction reqs R false = reqs ∧
    (handleRequestAction reqs R true).Sublist reqs ∧
    ∀ q : JoinRequestView, q ∈ handleRequestAction reqs R true ↔ q ∈ reqs ∧ q.id ≠ R := by
  refine ⟨rfl, ?_, ?_⟩
  · show (reqs.filter (fun req => req.id != R)).Sublist reqs
    exact List.filter_sublist reqs
  · intro q
    show q ∈ reqs.filter (fun req => req.id != R) ↔ _
    rw [List.mem_filter]
    constructor
    · rintro ⟨h1, h2⟩
      exact ⟨h1, by simpa [bne_iff_ne] using h2⟩
    · rintro ⟨h1, h2⟩
      exact ⟨h1, by simpa [bne_iff_ne] using h2⟩

/-- C9: every failure result of create among unauthorized, missing group
id, group not found, already member and already pending is returned with
the store exactly as it was before the call, and these outcomes map to
HTTP 401, 400, 404, 400 and 400 respectively. -/
theorem create_error_frame (st : Store) (s gp : Option String) (uf : Bool)
    (ok : String → Bool)
    (h : (createJoinRequest st s gp uf ok).result = CreateResult.unauthorized ∨
         (createJoinRequest st s gp uf ok).result = CreateResult.missingGroupId ∨
         (createJoinRequest st s gp uf ok).result = CreateResult.groupNotFound ∨
         (createJoinRequest st s gp uf ok).result = CreateResult.alreadyMember ∨
         (createJoinRequest st s gp uf ok).result = CreateResult.alreadyPending) :
    (createJoinRequest st s gp uf ok).store = st ∧
    createHttpStatus CreateResult.unauthorized = 401 ∧
    createHttpStatus CreateResult.missingGroupId = 400 ∧
    createHttpStatus CreateResult.groupNotFound = 404 ∧
    createHttpStatus CreateResult.alreadyMember = 400 ∧
    createHttpStatus CreateResult.alreadyPending = 400 := by
  refine ⟨?_, rfl, rfl, rfl, rfl, rfl⟩
  rcases create_cases st s gp uf with ⟨U, G, _, _, hall⟩ | ⟨e, _, hall⟩
  · rw [hall ok] at h
    rcases h with h | h | h | h | h <;>
      (dsimp only at h; exact CreateResult.noConfusion h)
  · rw [hall ok]

theorem create_error_frame_witness :
    (createJoinRequest sampleStore none (some "g1") false (fun _ => true)).store =
      sampleStore ∧
    createHttpStatus CreateResult.unauthorized = 401 ∧
    createHttpStatus CreateResult.missingGroupId = 400 ∧
    createHttpStatus CreateResult.groupNotFound = 404 ∧
    createHttpStatus CreateResult.alreadyMember = 400 ∧
    createHttpStatus CreateResult.alreadyPending = 400 :=
  create_error_frame sampleStore none (some "g1") false (fun _ => true)
    (Or.inl (by decide))

/-- C10: create attempts no notification unless the upsert succeeded: a
non-created outcome carries an empty attempt list, an internalError
outcome (the upsert throwing) returns HTTP 500 with the store unchanged
and zero attempts, every logged failure is one of the attempts, and a
created outcome attempts exactly the admin emails — adminEmails skips an
admin whose email is null, so such an admin is neither attempted nor
counted as a failure. -/
theorem create_no_notification_without_upsert (st : Store) (U G : String) (uf : Bool)
    (ok : String → Bool) :
    ((createJoinRequest st (some U) (some G) uf ok).result ≠ CreateResult.created →
      (createJoinRequest st (some U) (some G) uf ok).attempted = []) ∧
    ((createJoinRequest st (some U) (some G) uf ok).result = CreateResult.internalError →
      createHttpStatus (createJoinRequest st (some U) (some G) uf ok).result = 500 ∧
      (createJoinRequest st (some U) (some G) uf ok).store = st ∧
      (createJoinRequest st (some U) (some G) uf ok).attempted = []) ∧
    (∀ e, e ∈ (createJoinRequest st (some U) (some G) uf ok).failedLogged →
      e ∈ (createJoinRequest st (some U) (some G) uf ok).attempted) ∧
    ((createJoinRequest st (some U) (some G) uf ok).result = CreateResult.created →
      (createJoinRequest st (some U) (some G) uf ok).attempted = adminEmails st G) := by
  rcases create_cases_some st U G uf with hall | ⟨e, hne, hall⟩
  · rw [hall ok]
    refine ⟨fun hc => absurd rfl hc, fun hc => CreateResult.noConfusion hc, ?_,
      fun _ => rfl⟩
    intro x hx
    exact (List.mem_filter.mp hx).1
  · rw [hall ok]
    refine ⟨fun _ => rfl, fun hc => ?_, ?_, fun hc => absurd hc hne⟩
    · rw [hc]
      exact ⟨rfl, rfl, rfl⟩
    · intro x hx
      exact absurd hx (List.not_mem_nil x)

theorem create_no_notification_without_upsert_witness :
    (createJoinRequest sampleStore (some "bob") (some "g1") false
        (fun _ => false)).attempted = adminEmails sampleStore "g1" :=
  (create_no_notification_without_upsert sampleStore "bob" "g1" false
    (fun _ => false)).2.2.2 (by decide)

end JoinRequestLifecycle
